import Mathlib

/-!
Shallow embedding of the JWT-authentication caching core of this repository:
`source/extensions/filters/http/jwt_authn/jwt_cache.cc` (the bounded LRU cache
of verified tokens) and `source/extensions/filters/http/jwt_authn/jwks_cache.cc`
(the per-provider key-set cache with an issuer index).

External collaborators that the two files call into but that are not part of
the repository sources (the vendored `simple_lru_cache` library, the
`jwt_verify_lib` token library, the protobuf configuration readers and the
time source) are modelled from the specification's description of them; each
such definition is marked `Modelled from the spec:` in its doc comment.
Monotonic time is modelled as a natural number of milliseconds, with
`std::chrono::steady_clock::time_point::max()` represented by a distinguished
top element `MonoTime.never` that no clock reading ever attains.
-/

namespace JwtAuthn

/-- Status codes of the external `jwt_verify_lib` used by the two files
(`Status::Ok`, `Status::JwtExpired`, and a representative parse-failure code). -/
inductive JwtStatus where
  | Ok
  | JwtExpired
  | JwksParseError
deriving DecidableEq, Repr

/-- Modelled from the spec: the token-parsing collaborator's parsed token
object (`::google::jwt_verify::Jwt`, outside src/). The spec only requires
that it exposes a time-validity (`exp`) check against a given current time;
`sub` is an opaque payload distinguishing parsed tokens. -/
structure Jwt where
  sub : String
  exp : Nat
deriving DecidableEq, Repr

/-- Modelled from the spec: `Jwt::verifyTimeConstraint` of `jwt_verify_lib`
(outside src/) — "checks the cached token's own time-validity claim (its
expiry claim) against the current time". The token has expired when the
current time has passed its `exp` claim. -/
def Jwt.verifyTimeConstraint (jwt : Jwt) (now : Nat) : JwtStatus :=
  if jwt.exp < now then .JwtExpired else .Ok

/-- Modelled from the spec: the generic bounded LRU cache
(`SimpleLRUCache<std::string, Jwt>` of the vendored `simple_lru_cache`
library, outside src/). `entries` is kept in most-recently-used-first order;
`maxSize` is the fixed capacity set at construction. All entries carry
weight 1, as in `jwt_cache.cc`. -/
structure SimpleLRUCache where
  maxSize : Nat
  entries : List (String × Jwt)
deriving DecidableEq, Repr

/-- First entry of an association list with the given key, if any. -/
def findEntry (l : List (String × Jwt)) (k : String) : Option (String × Jwt) :=
  l.find? (fun e => e.1 == k)

/-- All entries of an association list whose key differs from `k`. -/
def eraseKey (l : List (String × Jwt)) (k : String) : List (String × Jwt) :=
  l.filter (fun e => e.1 != k)

/-- Modelled from the spec: an empty LRU cache with the given capacity. -/
def SimpleLRUCache.create (size : Nat) : SimpleLRUCache :=
  { maxSize := size, entries := [] }

/-- Modelled from the spec: LRU insert with weight 1 — an existing entry for
the key is replaced and refreshed, the new entry becomes most recent, and
least-recently-used entries are evicted while the entry count would exceed
the capacity. -/
def SimpleLRUCache.insert (c : SimpleLRUCache) (k : String) (v : Jwt) :
    SimpleLRUCache :=
  { c with entries := ((k, v) :: eraseKey c.entries k).take c.maxSize }

/-- Modelled from the spec: LRU lookup — a hit returns the stored value and
refreshes the entry's recency (moves it to the most-recent position); a miss
leaves the cache unchanged. -/
def SimpleLRUCache.lookup (c : SimpleLRUCache) (k : String) :
    Option Jwt × SimpleLRUCache :=
  match findEntry c.entries k with
  | some e => (some e.2, { c with entries := (k, e.2) :: eraseKey c.entries k })
  | none => (none, c)

/-- Modelled from the spec: LRU removal of the entry with the given key. -/
def SimpleLRUCache.remove (c : SimpleLRUCache) (k : String) : SimpleLRUCache :=
  { c with entries := eraseKey c.entries k }

/-- The default number of entries in JWT cache is 100
(`kJwtCacheDefaultSize` in `jwt_cache.cc`). -/
def kJwtCacheDefaultSize : Nat := 100

/-- State of `JwtCacheImpl` (`jwt_cache.cc`): the owned LRU cache, which is
null (`none`) when caching is disabled. The time source is external state
and is passed to `lookup` as an argument. -/
structure JwtCacheImpl where
  jwt_cache : Option SimpleLRUCache
deriving DecidableEq, Repr

/-- `JwtCacheImpl::JwtCacheImpl` (`jwt_cache.cc` lines 20–30): if caching is
enabled, a cache is allocated; a configured size of 0 means "not specified"
and falls back to the default size. If caching is disabled no cache is
allocated. -/
def JwtCacheImpl.create (enable_cache : Bool) (cache_size : Nat) :
    JwtCacheImpl :=
  if enable_cache then
    { jwt_cache := some (SimpleLRUCache.create
        (if cache_size = 0 then kJwtCacheDefaultSize else cache_size)) }
  else
    { jwt_cache := none }

/-- `JwtCacheImpl::lookup` (`jwt_cache.cc` lines 38–55): with no cache the
lookup misses; otherwise the LRU is consulted, and on a hit the cached
token's own time constraint is checked against the current time — an expired
token is removed from the cache and the lookup misses. -/
def JwtCacheImpl.lookup (c : JwtCacheImpl) (token : String) (now : Nat) :
    Option Jwt × JwtCacheImpl :=
  match c.jwt_cache with
  | none => (none, c)
  | some lru =>
    match lru.lookup token with
    | (none, lru1) => (none, { jwt_cache := some lru1 })
    | (some found_jwt, lru1) =>
      if found_jwt.verifyTimeConstraint now = .JwtExpired then
        (none, { jwt_cache := some (lru1.remove token) })
      else
        (some found_jwt, { jwt_cache := some lru1 })

/-- `JwtCacheImpl::insert` (`jwt_cache.cc` lines 57–62): if the cache exists,
the token is inserted with weight 1 (ownership passes to the cache);
otherwise nothing happens. -/
def JwtCacheImpl.insert (c : JwtCacheImpl) (token : String) (jwt : Jwt) :
    JwtCacheImpl :=
  match c.jwt_cache with
  | none => c
  | some lru => { jwt_cache := some (lru.insert token jwt) }

/-- One operation on the token cache, for stating properties over arbitrary
operation sequences. -/
inductive CacheOp where
  | insertOp (token : String) (jwt : Jwt)
  | lookupOp (token : String) (now : Nat)
deriving DecidableEq, Repr

/-- Apply one operation to the cache state. -/
def JwtCacheImpl.step (c : JwtCacheImpl) : CacheOp → JwtCacheImpl
  | .insertOp token jwt => c.insert token jwt
  | .lookupOp token now => (c.lookup token now).2

/-- Apply a sequence of operations to the cache state, in order. -/
def JwtCacheImpl.run (c : JwtCacheImpl) (ops : List CacheOp) : JwtCacheImpl :=
  ops.foldl JwtCacheImpl.step c

/-- Number of entries currently held by the cache. -/
def JwtCacheImpl.size (c : JwtCacheImpl) : Nat :=
  match c.jwt_cache with
  | none => 0
  | some lru => lru.entries.length

/-- Whether the cache currently holds an entry for the given token. -/
def JwtCacheImpl.containsToken (c : JwtCacheImpl) (token : String) : Bool :=
  match c.jwt_cache with
  | none => false
  | some lru => (findEntry lru.entries token).isSome

/-- Insert a list of tokens in order, each mapped to its value by `f`. -/
def JwtCacheImpl.insertAll (c : JwtCacheImpl) (ks : List String)
    (f : String → Jwt) : JwtCacheImpl :=
  ks.foldl (fun c k => c.insert k (f k)) c

/-! ### The key-set cache (`jwks_cache.cc`) -/

/-- Modelled from the spec: the monotonic time domain used for key-set
expiration. `point t` is a clock reading `t` milliseconds after the
monotonic epoch (`MonotonicTime` default-initializes to `point 0`);
`never` is `std::chrono::steady_clock::time_point::max()`, the order-top of
the time domain used as the "infinite expiration" sentinel, which no clock
reading ever attains. -/
inductive MonoTime where
  | point : Nat → MonoTime
  | never : MonoTime
deriving DecidableEq, Repr

/-- Whether the clock reading `now` (milliseconds) is at or past an
expiration instant: `now >= expiration_time_`. A `never` instant is past no
clock reading. -/
def MonoTime.reached (e : MonoTime) (now : Nat) : Bool :=
  match e with
  | .point t => t ≤ now
  | .never => false

/-- Modelled from the spec: the `remote_jwks` part of a provider's proto
configuration; `cache_duration` (a proto `Duration`) is carried as
milliseconds, the unit `DurationUtil::durationToMilliseconds` converts to. -/
structure RemoteJwks where
  cache_duration_ms : Option Nat
deriving DecidableEq, Repr

/-- Modelled from the spec: the per-provider proto configuration
(`JwtProvider`) as consumed by `jwks_cache.cc`: issuer string, audience
list, inline key material (`local_jwks`, carried here as the already-read
bytes that `Config::DataSource::read` returns), the optional remote-fetch
configuration, and the token-cache capacity (0 when unspecified). -/
structure JwtProvider where
  issuer : String
  audiences : List String
  local_jwks : String
  remote_jwks : Option RemoteJwks
  token_cache_size : Nat
deriving DecidableEq, Repr

/-- Modelled from the spec: the key-parsing collaborator's parsed key set
(`::google::jwt_verify::Jwks`, outside src/) — an opaque object carrying a
status flag that records whether parsing succeeded. -/
structure Jwks where
  status : JwtStatus
deriving DecidableEq, Repr

/-- Default cache expiration time in seconds
(`PubkeyCacheExpirationSec` in `jwks_cache.cc`; the code adds it with
`std::chrono::seconds`, hence ×1000 where milliseconds are needed). -/
def PubkeyCacheExpirationSec : Nat := 600

/-- The default number of entries in JWT cache
(`kJwtCacheSize` in `jwks_cache.cc`). -/
def kJwtCacheSize : Nat := 100

/-- State of `JwksDataImpl` (`jwks_cache.cc` lines 32–111): the borrowed
provider config, the owned parsed key set (nullable), the expiration
instant, and the lazily created per-provider token cache. The token cache
(`TokenCache`, declared outside src/) is modelled as the LRU cache it wraps,
constructed from a capacity. -/
structure JwksData where
  jwt_provider : JwtProvider
  jwks_obj : Option Jwks
  expiration_time : MonoTime
  token_cache : Option SimpleLRUCache
deriving DecidableEq, Repr

/-- `JwksDataImpl::setKey` (`jwks_cache.cc` lines 93–98): installs a key set
and an expiration instant. -/
def JwksData.setKey (d : JwksData) (jwks : Option Jwks) (expire : MonoTime) :
    JwksData :=
  { d with jwks_obj := jwks, expiration_time := expire }

/-- `JwksDataImpl::JwksDataImpl` (`jwks_cache.cc` lines 34–53): the fields
start default-initialized (no key set, expiration at the monotonic epoch,
no token cache); if the inline key material is non-empty it is parsed by
the collaborator `parseJwks` and installed with an infinite expiration, and
when parsing fails only the key-set pointer is reset to null. -/
def JwksData.init (p : JwtProvider) (parseJwks : String → Jwks) : JwksData :=
  let base : JwksData :=
    { jwt_provider := p, jwks_obj := none,
      expiration_time := .point 0, token_cache := none }
  if p.local_jwks = "" then base
  else
    let jwks := parseJwks p.local_jwks
    let installed := base.setKey (some jwks) .never
    if jwks.status = .Ok then installed
    else { installed with jwks_obj := none }

/-- `JwksDataImpl::getJwksObj` (`jwks_cache.cc` line 61). -/
def JwksData.getJwksObj (d : JwksData) : Option Jwks :=
  d.jwks_obj

/-- `JwksDataImpl::isExpired` (`jwks_cache.cc` line 63):
`time_source_.monotonicTime() >= expiration_time_`, with the current
monotonic clock reading passed in as `now`. -/
def JwksData.isExpired (d : JwksData) (now : Nat) : Bool :=
  d.expiration_time.reached now

/-- `JwksDataImpl::getRemoteJwksExpirationTime` (`jwks_cache.cc` lines
82–91): current monotonic time plus the configured remote-fetch cache
duration, or plus the default of `PubkeyCacheExpirationSec` seconds when the
provider has no `remote_jwks` or no `cache_duration`. -/
def JwksData.getRemoteJwksExpirationTime (d : JwksData) (now : Nat) :
    MonoTime :=
  match d.jwt_provider.remote_jwks with
  | some r =>
    match r.cache_duration_ms with
    | some ms => .point (now + ms)
    | none => .point (now + PubkeyCacheExpirationSec * 1000)
  | none => .point (now + PubkeyCacheExpirationSec * 1000)

/-- `JwksDataImpl::setRemoteJwks` (`jwks_cache.cc` lines 65–67): installs a
freshly fetched key set with the remote expiration instant computed at the
current monotonic time `now`. -/
def JwksData.setRemoteJwks (d : JwksData) (jwks : Jwks) (now : Nat) :
    JwksData :=
  d.setKey (some jwks) (d.getRemoteJwksExpirationTime now)

/-- `JwksDataImpl::getTokenCache` (`jwks_cache.cc` lines 69–78): on first
access creates the token cache with the provider's configured capacity when
positive and `kJwtCacheSize` otherwise; returns the (possibly just created)
cache together with the updated state. -/
def JwksData.getTokenCache (d : JwksData) : SimpleLRUCache × JwksData :=
  match d.token_cache with
  | some tc => (tc, d)
  | none =>
    let tc := SimpleLRUCache.create
      (if d.jwt_provider.token_cache_size > 0 then
        d.jwt_provider.token_cache_size
      else kJwtCacheSize)
    (tc, { d with token_cache := some tc })

/-- State of `JwksCacheImpl` (`jwks_cache.cc` lines 113–157). The data map
is an association list from provider name to its `JwksData`
(`absl::node_hash_map` has pointer-stable entries); the issuer index stores,
per issuer string, the provider name whose entry the C++ `JwksData*`
points at. -/
structure JwksCacheImpl where
  jwks_data_map : List (String × JwksData)
  issuer_ptr_map : List (String × String)
deriving DecidableEq, Repr

/-- One iteration of the constructor loop of `JwksCacheImpl::JwksCacheImpl`
(`jwks_cache.cc` lines 117–123): the provider's `JwksData` is constructed
and added to the data map, and the provider's issuer is registered in the
issuer index — pointing at the just-inserted entry, via
`findByProvider(it.first)` — unless that issuer is already present. -/
def JwksCacheImpl.addProvider (parseJwks : String → Jwks) (c : JwksCacheImpl)
    (it : String × JwtProvider) : JwksCacheImpl :=
  { jwks_data_map := c.jwks_data_map ++ [(it.1, JwksData.init it.2 parseJwks)],
    issuer_ptr_map :=
      if (c.issuer_ptr_map.find? (fun e => e.1 == it.2.issuer)).isSome then
        c.issuer_ptr_map
      else
        c.issuer_ptr_map ++ [(it.2.issuer, it.1)] }

/-- `JwksCacheImpl::JwksCacheImpl` (`jwks_cache.cc` lines 116–124): the
constructor loop over the configured providers. `providers` is the sequence
of (name, provider) pairs in the order the configuration map
`config.providers()` iterates them (a protobuf map, whose iteration order is
unspecified and need not be the order providers were written in). -/
def JwksCacheImpl.create (providers : List (String × JwtProvider))
    (parseJwks : String → Jwks) : JwksCacheImpl :=
  providers.foldl (JwksCacheImpl.addProvider parseJwks)
    { jwks_data_map := [], issuer_ptr_map := [] }

/-- `JwksCacheImpl::findIssuerMap` (`jwks_cache.cc` lines 145–151): looks the
issuer up in the issuer index, returning the registered entry (identified by
its provider name, standing for the stored `JwksData*`; `it->second`) or
`none` (the `nullptr` result). -/
def JwksCacheImpl.findIssuerMap (c : JwksCacheImpl) (issuer : String) :
    Option String :=
  (c.issuer_ptr_map.find? (fun e => e.1 == issuer)).map Prod.snd

/-- `JwksCacheImpl::findByIssuer` (`jwks_cache.cc` lines 126–133): looks the
issuer up in the index; when nothing is found and the issuer is non-empty,
falls back to the entry registered under the empty issuer string. -/
def JwksCacheImpl.findByIssuer (c : JwksCacheImpl) (issuer : String) :
    Option String :=
  match c.findIssuerMap issuer with
  | some d => some d
  | none => if issuer ≠ "" then c.findIssuerMap "" else none

/-- `JwksCacheImpl::findByProvider` (`jwks_cache.cc` lines 135–142): direct
lookup by provider name; an absent name is a contract violation
(`NOT_REACHED`), modelled as `none`. -/
def JwksCacheImpl.findByProvider (c : JwksCacheImpl) (provider : String) :
    Option JwksData :=
  (c.jwks_data_map.find? (fun e => e.1 == provider)).map Prod.snd

/-! ### Auxiliary notions and concrete fixtures used in the statements -/

/-- Size-bound invariant on the token-cache state: whenever a cache is
allocated, its capacity is `N` and it holds at most `N` entries. -/
def JwtCacheImpl.Inv (c : JwtCacheImpl) (N : Nat) : Prop :=
  ∀ lru, c.jwt_cache = some lru → lru.maxSize = N ∧ lru.entries.length ≤ N

/-- A key-parsing collaborator that accepts every input. -/
def parseOkFn : String → Jwks := fun _ => { status := .Ok }

/-- A key-parsing collaborator that rejects every input. -/
def parseBadFn : String → Jwks := fun _ => { status := .JwksParseError }

/-- Sample parsed tokens for concrete cache runs, all expiring at 1000. -/
def jwtOf : String → Jwt := fun s => { sub := s, exp := 1000 }

/-- Sample provider: issuer `iss-b`, no inline keys, no remote config. -/
def provIssB : JwtProvider :=
  { issuer := "iss-b", audiences := [], local_jwks := "",
    remote_jwks := none, token_cache_size := 0 }

/-- Sample catch-all provider with the empty issuer. -/
def provEmptyIss : JwtProvider :=
  { issuer := "", audiences := [], local_jwks := "",
    remote_jwks := none, token_cache_size := 0 }

/-- Sample provider with a configured remote-fetch cache duration of 120 s. -/
def provRemote120s : JwtProvider :=
  { issuer := "iss-r", audiences := [], local_jwks := "",
    remote_jwks := some { cache_duration_ms := some 120000 },
    token_cache_size := 0 }

/-- Sample provider with non-empty inline key material. -/
def provInline : JwtProvider :=
  { issuer := "iss-i", audiences := [], local_jwks := "inline-keys",
    remote_jwks := none, token_cache_size := 0 }

/-- Two sample providers sharing the issuer `iss-s`, distinguished by their
token-cache capacities. -/
def provShared1 : JwtProvider :=
  { issuer := "iss-s", audiences := [], local_jwks := "",
    remote_jwks := none, token_cache_size := 1 }

/-- Second sample provider with the shared issuer `iss-s`. -/
def provShared2 : JwtProvider :=
  { issuer := "iss-s", audiences := [], local_jwks := "",
    remote_jwks := none, token_cache_size := 2 }

/-- A sample key-set cache built from two providers, one with a non-empty
issuer and one catch-all empty-issuer provider. -/
def jwksCacheSample : JwksCacheImpl :=
  JwksCacheImpl.create [("pb", provIssB), ("pe", provEmptyIss)] parseOkFn

/-- A sample LRU state holding one token whose `exp` claim is 5. -/
def expiredLru : SimpleLRUCache :=
  (SimpleLRUCache.create 2).insert "tok" { sub := "tok", exp := 5 }

/-! ## Association-list helper lemmas -/

theorem findEntry_eq_none_iff (l : List (String × Jwt)) (k : String) :
    findEntry l k = none ↔ ∀ e ∈ l, e.1 ≠ k := by
  simp [findEntry, List.find?_eq_none]

theorem findEntry_isSome_iff (l : List (String × Jwt)) (k : String) :
    (findEntry l k).isSome ↔ ∃ e ∈ l, e.1 = k := by
  simp [findEntry, List.find?_isSome]

theorem findEntry_eraseKey_self (l : List (String × Jwt)) (k : String) :
    findEntry (eraseKey l k) k = none := by
  rw [findEntry_eq_none_iff]
  intro e he
  have h := List.mem_filter.mp he
  simpa using h.2

theorem eraseKey_of_not_found (l : List (String × Jwt)) (k : String)
    (h : findEntry l k = none) : eraseKey l k = l := by
  rw [findEntry_eq_none_iff] at h
  exact List.filter_eq_self.mpr (fun e he => by simpa using h e he)

theorem eraseKey_length_le (l : List (String × Jwt)) (k : String) :
    (eraseKey l k).length ≤ l.length :=
  List.length_filter_le _ _

theorem eraseKey_length_lt (l : List (String × Jwt)) (k : String)
    (h : (findEntry l k).isSome) : (eraseKey l k).length < l.length := by
  induction l with
  | nil => simp [findEntry] at h
  | cons e t ih =>
    by_cases hk : e.1 = k
    · have he : eraseKey (e :: t) k = eraseKey t k := by
        simp [eraseKey, List.filter_cons, hk]
      rw [he, List.length_cons]
      exact Nat.lt_succ_of_le (eraseKey_length_le t k)
    · have he : eraseKey (e :: t) k = e :: eraseKey t k := by
        simp [eraseKey, List.filter_cons, hk]
      have hf : (findEntry t k).isSome := by
        rw [findEntry_isSome_iff] at h ⊢
        rcases h with ⟨e1, he1, hk1⟩
        rcases List.mem_cons.mp he1 with rfl | hmem
        · exact absurd hk1 hk
        · exact ⟨e1, hmem, hk1⟩
      rw [he, List.length_cons, List.length_cons]
      exact Nat.succ_lt_succ (ih hf)

theorem take_append_take {α : Type} (A B : List α) (n : Nat) :
    (A ++ B.take n).take n = (A ++ B).take n := by
  rw [List.take_append_eq_append_take, List.take_append_eq_append_take,
    List.take_take]
  have hmin : min (n - A.length) n = n - A.length :=
    Nat.min_eq_left (Nat.sub_le n A.length)
  rw [hmin]

/-! ## Claim C3: remote key-set expiration -/

/-- C3: immediately after `setRemoteJwks` at monotonic time `t`, `isExpired`
is false at every time strictly before `t + D` and true at every time at or
after `t + D`, where `D` is the provider's configured remote-fetch cache
duration and defaults to 600 seconds (600000 ms) when the provider has no
remote configuration or no configured duration — the `getD` default below. -/
theorem claim_C3_remote_expiration_window (d : JwksData) (jwks : Jwks)
    (t s : Nat) :
    (s < t + ((d.jwt_provider.remote_jwks.bind RemoteJwks.cache_duration_ms).getD
        (600 * 1000)) →
      (d.setRemoteJwks jwks t).isExpired s = false) ∧
    (t + ((d.jwt_provider.remote_jwks.bind RemoteJwks.cache_duration_ms).getD
        (600 * 1000)) ≤ s →
      (d.setRemoteJwks jwks t).isExpired s = true) := by
  cases hr : d.jwt_provider.remote_jwks with
  | none =>
    constructor <;> intro h <;>
      simp_all [JwksData.setRemoteJwks, JwksData.setKey, JwksData.isExpired,
        JwksData.getRemoteJwksExpirationTime, MonoTime.reached,
        PubkeyCacheExpirationSec]
  | some r =>
    cases hc : r.cache_duration_ms with
    | none =>
      constructor <;> intro h <;>
        simp_all [JwksData.setRemoteJwks, JwksData.setKey, JwksData.isExpired,
          JwksData.getRemoteJwksExpirationTime, MonoTime.reached,
          PubkeyCacheExpirationSec]
    | some ms =>
      constructor <;> intro h <;>
        simp_all [JwksData.setRemoteJwks, JwksData.setKey, JwksData.isExpired,
          JwksData.getRemoteJwksExpirationTime, MonoTime.reached]

/-- C3 witness: a provider with a configured 120 s cache duration, refreshed
at time 0, is unexpired at 119999 ms and expired at 120000 ms. -/
theorem claim_C3_witness :
    ((JwksData.init provRemote120s parseOkFn).setRemoteJwks
        { status := .Ok } 0).isExpired 119999 = false ∧
    ((JwksData.init provRemote120s parseOkFn).setRemoteJwks
        { status := .Ok } 0).isExpired 120000 = true :=
  ⟨(claim_C3_remote_expiration_window (JwksData.init provRemote120s parseOkFn)
      { status := .Ok } 0 119999).1 (by decide),
   (claim_C3_remote_expiration_window (JwksData.init provRemote120s parseOkFn)
      { status := .Ok } 0 120000).2 (by decide)⟩

/-! ## Claim C7: inline key material never expires -/

/-- C7: for a provider whose inline key material is non-empty and parses
successfully, `isExpired` is false at every subsequent time (the expiration
instant is the infinite sentinel). -/
theorem claim_C7_inline_never_expires (p : JwtProvider)
    (parseJwks : String → Jwks) (hne : p.local_jwks ≠ "")
    (hok : (parseJwks p.local_jwks).status = .Ok) (now : Nat) :
    (JwksData.init p parseJwks).isExpired now = false ∧
    (JwksData.init p parseJwks).expiration_time = .never := by
  simp [JwksData.init, JwksData.setKey, JwksData.isExpired, hne, hok,
    MonoTime.reached]

/-- C7 witness: the inline-keys provider is unexpired even at a very large
clock reading. -/
theorem claim_C7_witness :
    (JwksData.init provInline parseOkFn).isExpired 1000000000000 = false ∧
    (JwksData.init provInline parseOkFn).expiration_time = .never :=
  claim_C7_inline_never_expires provInline parseOkFn (by decide) (by decide)
    1000000000000

/-! ## Claim C9: no inline key material starts expired -/

/-- C9: for a provider with empty inline key material, immediately after
construction the expiration instant is left default-initialized at the
monotonic epoch, so `isExpired` is true at every clock reading. -/
theorem claim_C9_no_inline_starts_expired (p : JwtProvider)
    (parseJwks : String → Jwks) (h : p.local_jwks = "") (now : Nat) :
    (JwksData.init p parseJwks).expiration_time = .point 0 ∧
    (JwksData.init p parseJwks).isExpired now = true := by
  simp [JwksData.init, JwksData.isExpired, h, MonoTime.reached]

/-- C9 witness: the no-inline provider `provIssB` starts expired at time 0. -/
theorem claim_C9_witness :
    (JwksData.init provIssB parseOkFn).expiration_time = .point 0 ∧
    (JwksData.init provIssB parseOkFn).isExpired 0 = true :=
  claim_C9_no_inline_starts_expired provIssB parseOkFn (by decide) 0

/-! ## Claim C10: failed inline parse leaves a null key set that never
expires -/

/-- C10: for a provider whose inline key material is non-empty but fails to
parse, the stored key set is null while the expiration instant remains
infinite, so `getJwksObj` returns `none` and `isExpired` is false at every
subsequent time. -/
theorem claim_C10_bad_inline_null_but_never_expires (p : JwtProvider)
    (parseJwks : String → Jwks) (hne : p.local_jwks ≠ "")
    (hbad : (parseJwks p.local_jwks).status ≠ .Ok) (now : Nat) :
    (JwksData.init p parseJwks).getJwksObj = none ∧
    (JwksData.init p parseJwks).expiration_time = .never ∧
    (JwksData.init p parseJwks).isExpired now = false := by
  simp [JwksData.init, JwksData.setKey, JwksData.getJwksObj,
    JwksData.isExpired, hne, hbad, MonoTime.reached]

/-- C10 witness: the inline-keys provider under the rejecting parser holds no
key set yet is never reported expired. -/
theorem claim_C10_witness :
    (JwksData.init provInline parseBadFn).getJwksObj = none ∧
    (JwksData.init provInline parseBadFn).expiration_time = .never ∧
    (JwksData.init provInline parseBadFn).isExpired 999999999 = false :=
  claim_C10_bad_inline_null_but_never_expires provInline parseBadFn
    (by decide) (by decide) 999999999

/-! ## Claim C8: lazy per-provider token cache -/

/-- C8: the first `getTokenCache` call creates the token cache with capacity
equal to the provider's configured size when positive and 100 otherwise,
starting empty; a subsequent call returns the same cache and the same state
without recreating it. -/
theorem claim_C8_token_cache_lazy_capacity (d : JwksData)
    (h : d.token_cache = none) :
    (d.getTokenCache).1.maxSize =
      (if d.jwt_provider.token_cache_size > 0 then
        d.jwt_provider.token_cache_size
      else 100) ∧
    (d.getTokenCache).1.entries = [] ∧
    (d.getTokenCache).2.getTokenCache = d.getTokenCache := by
  refine ⟨?_, ?_, ?_⟩ <;>
    simp [JwksData.getTokenCache, h, SimpleLRUCache.create, kJwtCacheSize]

/-- C8 witness: for a provider with no configured token-cache size, the
first access creates an empty cache of the default capacity 100 and the
second access returns it unchanged. -/
theorem claim_C8_witness :
    ((JwksData.init provIssB parseOkFn).getTokenCache).1.maxSize =
      (if (JwksData.init provIssB parseOkFn).jwt_provider.token_cache_size > 0
        then (JwksData.init provIssB parseOkFn).jwt_provider.token_cache_size
      else 100) ∧
    ((JwksData.init provIssB parseOkFn).getTokenCache).1.entries = [] ∧
    ((JwksData.init provIssB parseOkFn).getTokenCache).2.getTokenCache =
      (JwksData.init provIssB parseOkFn).getTokenCache :=
  claim_C8_token_cache_lazy_capacity (JwksData.init provIssB parseOkFn)
    (by decide)

/-! ## Claim C4: issuer lookup fallback -/

/-- C4: `findByIssuer` with the empty issuer never falls back (an
unregistered empty issuer reports not-found); with a non-empty issuer it
returns the exact-match entry when one is registered and otherwise the
result of looking up the empty-issuer entry (the registered catch-all if one
exists, not-found if none does). -/
theorem claim_C4_issuer_fallback (c : JwksCacheImpl) (issuer e : String) :
    (c.findIssuerMap "" = none → c.findByIssuer "" = none) ∧
    (issuer ≠ "" → c.findIssuerMap issuer = none →
      c.findByIssuer issuer = c.findIssuerMap "") ∧
    (c.findIssuerMap issuer = some e → c.findByIssuer issuer = some e) := by
  refine ⟨fun h => ?_, fun hne h => ?_, fun h => ?_⟩
  · simp [JwksCacheImpl.findByIssuer, h]
  · simp [JwksCacheImpl.findByIssuer, h, hne]
  · simp [JwksCacheImpl.findByIssuer, h]

/-- C4 witness: in the sample cache, an unknown non-empty issuer falls back
to the empty-issuer catch-all entry `pe`, and the registered issuer `iss-b`
resolves to its own entry `pb`. -/
theorem claim_C4_witness :
    jwksCacheSample.findByIssuer "iss-unknown" =
      jwksCacheSample.findIssuerMap "" ∧
    jwksCacheSample.findByIssuer "iss-b" = some "pb" :=
  ⟨(claim_C4_issuer_fallback jwksCacheSample "iss-unknown" "pb").2.1
      (by decide) (by decide),
   (claim_C4_issuer_fallback jwksCacheSample "iss-b" "pb").2.2 (by decide)⟩

/-! ## Claim C2: expired cached tokens are removed on lookup -/

/-- C2: when the cache holds an entry for `token` whose token fails its own
time-validity check at the moment of lookup, the lookup removes the entry
and reports a miss, and a subsequent lookup for the same key (at any time,
with no re-insert in between) also misses. The `Option` result is the only
channel: the condition is reported as `none` (a miss), never as an error. -/
theorem claim_C2_expired_token_removed (c : JwtCacheImpl)
    (lru : SimpleLRUCache) (token : String) (e : String × Jwt)
    (now now2 : Nat) (hc : c.jwt_cache = some lru)
    (hf : findEntry lru.entries token = some e)
    (hexp : e.2.verifyTimeConstraint now = .JwtExpired) :
    (c.lookup token now).1 = none ∧
    ((c.lookup token now).2).containsToken token = false ∧
    (((c.lookup token now).2).lookup token now2).1 = none := by
  have hl : lru.lookup token =
      (some e.2,
        { lru with entries := (token, e.2) :: eraseKey lru.entries token }) := by
    simp [SimpleLRUCache.lookup, hf]
  have hres : c.lookup token now =
      (none,
        JwtCacheImpl.mk (some
          { lru with entries :=
              eraseKey ((token, e.2) :: eraseKey lru.entries token) token })) := by
    simp [JwtCacheImpl.lookup, hc, hl, hexp, SimpleLRUCache.remove]
  refine ⟨by rw [hres], ?_, ?_⟩
  · rw [hres]
    simp [JwtCacheImpl.containsToken, findEntry_eraseKey_self]
  · rw [hres]
    simp [JwtCacheImpl.lookup, SimpleLRUCache.lookup, findEntry_eraseKey_self]

/-- C2 witness: a cached token with `exp` 5 looked up at time 10 is removed
and reported as a miss, and a later lookup at time 3 still misses. -/
theorem claim_C2_witness :
    ((⟨some expiredLru⟩ : JwtCacheImpl).lookup "tok" 10).1 = none ∧
    (((⟨some expiredLru⟩ : JwtCacheImpl).lookup "tok" 10).2).containsToken
      "tok" = false ∧
    ((((⟨some expiredLru⟩ : JwtCacheImpl).lookup "tok" 10).2).lookup
      "tok" 3).1 = none :=
  claim_C2_expired_token_removed ⟨some expiredLru⟩ expiredLru "tok"
    ("tok", { sub := "tok", exp := 5 }) 10 3 rfl (by decide) (by decide)

/-! ## Claim C6: disabled or zero-capacity caches -/

/-- C6 counterexample: a token cache constructed with caching enabled and a
configured capacity of zero is not inert — the constructor substitutes the
default capacity, so an insert changes the internal storage and a lookup
finds the inserted token instead of reporting not-found. -/
theorem claim_C6_counterexample :
    ((((JwtCacheImpl.create true 0).insert "t" (jwtOf "t")).lookup "t" 0).1 =
      some (jwtOf "t")) ∧
    (JwtCacheImpl.create true 0).insert "t" (jwtOf "t") ≠
      JwtCacheImpl.create true 0 := by
  decide

/-- C6 (amended): with caching disabled the cache is inert — after any
operation sequence the state is still the cacheless state, every lookup
reports not-found and every insert leaves the internal storage unchanged.
A capacity of zero with caching enabled instead means "not specified" and
selects the default capacity of 100, producing a normally storing cache. -/
theorem claim_C6_disabled_cache_inert (size : Nat) (ops : List CacheOp)
    (token : String) (jwt : Jwt) (now : Nat) :
    (JwtCacheImpl.create false size).run ops = JwtCacheImpl.create false size ∧
    ((JwtCacheImpl.create false size).lookup token now).1 = none ∧
    (JwtCacheImpl.create false size).insert token jwt =
      JwtCacheImpl.create false size ∧
    JwtCacheImpl.create true 0 = JwtCacheImpl.create true kJwtCacheDefaultSize
    := by
  have hcreate : JwtCacheImpl.create false size = ⟨none⟩ := by
    simp [JwtCacheImpl.create]
  have hstep : ∀ op : CacheOp, JwtCacheImpl.step ⟨none⟩ op = ⟨none⟩ := by
    intro op
    cases op <;> rfl
  refine ⟨?_, ?_, ?_, rfl⟩
  · rw [hcreate]
    induction ops with
    | nil => rfl
    | cons op t ih =>
      show JwtCacheImpl.run (JwtCacheImpl.step ⟨none⟩ op) t = _
      rw [hstep op]
      exact ih
  · rw [hcreate]
    rfl
  · rw [hcreate]
    rfl

/-! ## Claim C5: issuer index population order -/

/-- One constructor iteration changes the issuer index by at most the new
issuer: looking up any issuer `i` afterwards finds what was there before,
or else the new provider when its issuer is `i`. -/
theorem findIssuerMap_addProvider (parseJwks : String → Jwks)
    (c : JwksCacheImpl) (it : String × JwtProvider) (i : String) :
    (JwksCacheImpl.addProvider parseJwks c it).findIssuerMap i =
      (c.findIssuerMap i).or (if it.2.issuer = i then some it.1 else none) := by
  unfold JwksCacheImpl.addProvider JwksCacheImpl.findIssuerMap
  by_cases hf : (c.issuer_ptr_map.find? (fun e => e.1 == it.2.issuer)).isSome
  · rw [if_pos hf]
    by_cases hi : it.2.issuer = i
    · subst hi
      obtain ⟨e, he⟩ := Option.isSome_iff_exists.mp hf
      rw [he]
      simp
    · simp [hi]
  · rw [if_neg hf]
    rw [List.find?_append]
    by_cases hi : it.2.issuer = i
    · subst hi
      rw [Option.not_isSome_iff_eq_none] at hf
      rw [hf]
      simp
    · have hsing : (List.find? (fun e => e.1 == i) [(it.2.issuer, it.1)])
          = none := by
        simp [hi]
      rw [hsing]
      simp [hi]

/-- Folding the constructor loop over a provider sequence: an issuer lookup
afterwards finds what the initial state had, or else the first provider in
the sequence carrying that issuer. -/
theorem findIssuerMap_foldl (parseJwks : String → Jwks) (i : String)
    (ps : List (String × JwtProvider)) :
    ∀ c : JwksCacheImpl,
    (ps.foldl (JwksCacheImpl.addProvider parseJwks) c).findIssuerMap i =
      (c.findIssuerMap i).or
        ((ps.find? (fun it => it.2.issuer == i)).map Prod.fst) := by
  induction ps with
  | nil =>
    intro c
    simp [Option.or_none]
  | cons it ps ih =>
    intro c
    rw [List.foldl_cons, ih, findIssuerMap_addProvider, Option.or_assoc]
    congr 1
    by_cases hi : it.2.issuer = i
    · simp [List.find?_cons, hi]
    · simp [List.find?_cons, hi]

/-- One constructor iteration preserves distinctness of the issuer-index
keys: a new key is appended only when absent. -/
theorem issuer_keys_nodup_addProvider (parseJwks : String → Jwks)
    (c : JwksCacheImpl) (it : String × JwtProvider)
    (h : (c.issuer_ptr_map.map Prod.fst).Nodup) :
    ((JwksCacheImpl.addProvider parseJwks c it).issuer_ptr_map.map
      Prod.fst).Nodup := by
  unfold JwksCacheImpl.addProvider
  by_cases hf : (c.issuer_ptr_map.find? (fun e => e.1 == it.2.issuer)).isSome
  · simpa [if_pos hf] using h
  · have hnotin : it.2.issuer ∉ c.issuer_ptr_map.map Prod.fst := by
      rw [Option.not_isSome_iff_eq_none, List.find?_eq_none] at hf
      simp only [List.mem_map]
      rintro ⟨e, he, heq⟩
      exact absurd heq (by simpa using hf e he)
    simp only [if_neg hf, List.map_append]
    rw [List.nodup_append]
    refine ⟨h, List.nodup_singleton _, ?_⟩
    intro x hx hx1
    simp only [List.map_cons, List.map_nil, List.mem_singleton] at hx1
    subst hx1
    exact hnotin hx

/-- The issuer-index keys of a constructed cache are distinct. -/
theorem create_issuer_keys_nodup (ps : List (String × JwtProvider))
    (parseJwks : String → Jwks) :
    (((JwksCacheImpl.create ps parseJwks).issuer_ptr_map.map
      Prod.fst)).Nodup := by
  unfold JwksCacheImpl.create
  have hgen : ∀ c : JwksCacheImpl, (c.issuer_ptr_map.map Prod.fst).Nodup →
      (((ps.foldl (JwksCacheImpl.addProvider parseJwks) c).issuer_ptr_map.map
        Prod.fst)).Nodup := by
    induction ps with
    | nil => intro c hc; exact hc
    | cons it ps ih =>
      intro c hc
      rw [List.foldl_cons]
      exact ih _ (issuer_keys_nodup_addProvider parseJwks c it hc)
  exact hgen _ (by simp)

/-- C5 (amended): after construction the issuer index has at most one entry
per issuer string, and `findByIssuer` of an issuer carried by some provider
returns the entry of the first provider in the configuration map's
iteration order carrying that issuer (later duplicates are ignored). Which
provider that is depends on the map's iteration order — the counterexample
shows the result is not independent of it. -/
theorem claim_C5_first_iterated_provider_wins
    (ps : List (String × JwtProvider)) (parseJwks : String → Jwks)
    (i : String) (it0 : String × JwtProvider)
    (hfind : ps.find? (fun it => it.2.issuer == i) = some it0) :
    ((JwksCacheImpl.create ps parseJwks).issuer_ptr_map.map Prod.fst).Nodup ∧
    (JwksCacheImpl.create ps parseJwks).findByIssuer i = some it0.1 := by
  refine ⟨create_issuer_keys_nodup ps parseJwks, ?_⟩
  have h1 : (JwksCacheImpl.create ps parseJwks).findIssuerMap i
      = some it0.1 := by
    unfold JwksCacheImpl.create
    rw [findIssuerMap_foldl, hfind]
    simp [JwksCacheImpl.findIssuerMap]
  simp [JwksCacheImpl.findByIssuer, h1]

/-- C5 witness: with two providers sharing issuer `iss-s`, iterated with
`p1` first, the issuer index is duplicate-free and `iss-s` resolves to
`p1`. -/
theorem claim_C5_witness :
    (((JwksCacheImpl.create [("p1", provShared1), ("p2", provShared2)]
        parseOkFn).issuer_ptr_map.map Prod.fst).Nodup) ∧
    (JwksCacheImpl.create [("p1", provShared1), ("p2", provShared2)]
        parseOkFn).findByIssuer "iss-s" = some "p1" :=
  claim_C5_first_iterated_provider_wins
    [("p1", provShared1), ("p2", provShared2)] parseOkFn "iss-s"
    ("p1", provShared1) (by decide)

/-- C5 counterexample: the same two providers sharing issuer `iss-s`,
handed to the constructor in the two possible iteration orders of the
configuration map, make `findByIssuer "iss-s"` resolve to different
entries — the claimed independence from the map's iteration order fails. -/
theorem claim_C5_counterexample :
    (JwksCacheImpl.create [("p1", provShared1), ("p2", provShared2)]
        parseOkFn).findByIssuer "iss-s" ≠
    (JwksCacheImpl.create [("p2", provShared2), ("p1", provShared1)]
        parseOkFn).findByIssuer "iss-s" := by
  decide

/-! ## Claim C1: capacity bound and exact LRU eviction -/

theorem insert_entries_length (lru : SimpleLRUCache) (k : String) (v : Jwt) :
    (lru.insert k v).entries.length ≤ lru.maxSize := by
  simp [SimpleLRUCache.insert]

theorem eraseKey_cons_self (l : List (String × Jwt)) (k : String) (v : Jwt) :
    eraseKey ((k, v) :: l) k = eraseKey l k := by
  simp [eraseKey, List.filter_cons]

theorem lookup_some_result (lru : SimpleLRUCache) (token : String)
    (now : Nat) :
    ∃ lru1, ((JwtCacheImpl.mk (some lru)).lookup token now).2 = ⟨some lru1⟩ ∧
      lru1.maxSize = lru.maxSize ∧
      lru1.entries.length ≤ lru.entries.length := by
  cases hf : findEntry lru.entries token with
  | none =>
    refine ⟨lru, ?_, rfl, le_refl _⟩
    simp [JwtCacheImpl.lookup, SimpleLRUCache.lookup, hf]
  | some e =>
    have hlt := eraseKey_length_lt lru.entries token (by simp [hf])
    by_cases hexp : e.2.verifyTimeConstraint now = .JwtExpired
    · refine ⟨⟨lru.maxSize,
        eraseKey ((token, e.2) :: eraseKey lru.entries token) token⟩,
        ?_, rfl, ?_⟩
      · simp [JwtCacheImpl.lookup, SimpleLRUCache.lookup, hf, hexp,
          SimpleLRUCache.remove]
      · show (eraseKey ((token, e.2) :: eraseKey lru.entries token)
            token).length ≤ lru.entries.length
        rw [eraseKey_cons_self]
        have h2 := eraseKey_length_le (eraseKey lru.entries token) token
        omega
    · refine ⟨⟨lru.maxSize, (token, e.2) :: eraseKey lru.entries token⟩,
        ?_, rfl, ?_⟩
      · simp [JwtCacheImpl.lookup, SimpleLRUCache.lookup, hf, hexp]
      · simp only [List.length_cons]
        omega

theorem step_inv {c : JwtCacheImpl} {N : Nat} (h : c.Inv N) (op : CacheOp) :
    (c.step op).Inv N := by
  obtain ⟨cf⟩ := c
  cases op with
  | insertOp token jwt =>
    intro lru1 h1
    cases cf with
    | none => simp [JwtCacheImpl.step, JwtCacheImpl.insert] at h1
    | some lru =>
      obtain ⟨hm, _⟩ := h lru rfl
      simp only [JwtCacheImpl.step, JwtCacheImpl.insert,
        Option.some.injEq] at h1
      refine ⟨?_, ?_⟩
      · rw [← h1, ← hm]
        rfl
      · rw [← h1, ← hm]
        exact insert_entries_length lru token jwt
  | lookupOp token now =>
    intro lru1 h1
    cases cf with
    | none => simp [JwtCacheImpl.step, JwtCacheImpl.lookup] at h1
    | some lru =>
      obtain ⟨hm, hle⟩ := h lru rfl
      obtain ⟨lru2, heq, hms, hlen⟩ := lookup_some_result lru token now
      have h1' : (⟨some lru2⟩ : JwtCacheImpl).jwt_cache = some lru1 := by
        rw [← heq]
        exact h1
      simp only [Option.some.injEq] at h1'
      rw [← h1']
      exact ⟨by rw [hms, hm], by omega⟩

theorem run_inv {N : Nat} (ops : List CacheOp) :
    ∀ c : JwtCacheImpl, c.Inv N → (c.run ops).Inv N := by
  induction ops with
  | nil => intro c h; exact h
  | cons op t ih =>
    intro c h
    show ((c.step op).run t).Inv N
    exact ih _ (step_inv h op)

theorem foldl_insert_fresh (f : String → Jwt) (ks : List String) :
    ∀ lru : SimpleLRUCache, ks.Nodup →
      (∀ k ∈ ks, findEntry lru.entries k = none) →
      lru.entries.length ≤ lru.maxSize →
      (ks.foldl (fun l k => l.insert k (f k)) lru).entries =
        ((ks.reverse.map (fun k => (k, f k))) ++ lru.entries).take lru.maxSize
      ∧ (ks.foldl (fun l k => l.insert k (f k)) lru).maxSize = lru.maxSize := by
  induction ks with
  | nil =>
    intro lru _ _ hlen
    simp [List.take_of_length_le hlen]
  | cons k t ih =>
    intro lru hnd hfresh hlen
    have hk : findEntry lru.entries k = none := hfresh k (List.mem_cons_self k t)
    have hknd := List.nodup_cons.mp hnd
    have hstep : lru.insert k (f k) =
        ⟨lru.maxSize, ((k, f k) :: lru.entries).take lru.maxSize⟩ := by
      simp [SimpleLRUCache.insert, eraseKey_of_not_found _ _ hk]
    have hfresh1 : ∀ k' ∈ t,
        findEntry (((k, f k) :: lru.entries).take lru.maxSize) k' = none := by
      intro k' hk'
      rw [findEntry_eq_none_iff]
      intro e he
      rcases List.mem_cons.mp (List.take_subset _ _ he) with heq | hmem
      · subst heq
        show k ≠ k'
        intro hkk
        exact hknd.1 (by rwa [hkk])
      · exact (findEntry_eq_none_iff _ _).mp
          (hfresh k' (List.mem_cons_of_mem k hk')) e hmem
    have hrec := ih ⟨lru.maxSize, ((k, f k) :: lru.entries).take lru.maxSize⟩
      hknd.2 hfresh1 (by simp)
    rw [List.foldl_cons, hstep]
    refine ⟨?_, hrec.2⟩
    rw [hrec.1]
    show List.take lru.maxSize
        (t.reverse.map (fun k => (k, f k)) ++
          List.take lru.maxSize ((k, f k) :: lru.entries)) = _
    rw [take_append_take]
    congr 1
    rw [List.reverse_cons, List.map_append, List.append_cons]
    rfl

theorem insertAll_some (ks : List String) (f : String → Jwt) :
    ∀ lru : SimpleLRUCache,
    (JwtCacheImpl.mk (some lru)).insertAll ks f =
      ⟨some (ks.foldl (fun l k => l.insert k (f k)) lru)⟩ := by
  induction ks with
  | nil => intro lru; rfl
  | cons k t ih =>
    intro lru
    simp only [JwtCacheImpl.insertAll, List.foldl_cons] at ih ⊢
    exact ih (lru.insert k (f k))

/-- C1: for a token cache constructed with capacity `N > 0`, after any
sequence of insert and lookup operations the cache holds at most `N`
entries; and after inserting `N + 1` distinct keys into the fresh cache the
cached keys are exactly the tail of that key sequence — the first-inserted
(least-recently-accessed) key is the one and only key evicted. -/
theorem claim_C1_capacity_and_lru_eviction (N : Nat) (hN : 0 < N)
    (ops : List CacheOp) (ks : List String) (f : String → Jwt)
    (hnd : ks.Nodup) (hlen : ks.length = N + 1) :
    ((JwtCacheImpl.create true N).run ops).size ≤ N ∧
    ∀ k : String,
      (((JwtCacheImpl.create true N).insertAll ks f).containsToken k = true ↔
        k ∈ ks.tail) := by
  have hc : JwtCacheImpl.create true N =
      ⟨some { maxSize := N, entries := [] }⟩ := by
    simp [JwtCacheImpl.create, SimpleLRUCache.create,
      Nat.pos_iff_ne_zero.mp hN]
  constructor
  · have hinv : (JwtCacheImpl.create true N).Inv N := by
      intro lru h
      rw [hc] at h
      simp only [Option.some.injEq] at h
      rw [← h]
      exact ⟨rfl, by simp⟩
    have hrun := run_inv ops _ hinv
    cases hrc : ((JwtCacheImpl.create true N).run ops).jwt_cache with
    | none => simp [JwtCacheImpl.size, hrc]
    | some lru =>
      simp only [JwtCacheImpl.size, hrc]
      exact (hrun lru hrc).2
  · cases ks with
    | nil =>
      simp only [List.length_nil] at hlen
      omega
    | cons k0 t =>
      intro k
      have hT : t.length = N := by simpa using hlen
      rw [hc, insertAll_some]
      have hfold := foldl_insert_fresh f (k0 :: t)
        ⟨N, []⟩ hnd (fun _ _ => rfl) (by simp)
      have hkeys : ((k0 :: t).foldl
          (fun l k => l.insert k (f k)) (⟨N, []⟩ : SimpleLRUCache)).entries =
          t.reverse.map (fun k => (k, f k)) := by
        rw [hfold.1]
        show List.take N
            (((k0 :: t).reverse.map (fun k => (k, f k))) ++ []) = _
        rw [List.append_nil, List.reverse_cons, List.map_append]
        exact List.take_left' (by simp [hT])
      show (findEntry ((k0 :: t).foldl
          (fun l k => l.insert k (f k)) (⟨N, []⟩ : SimpleLRUCache)).entries
          k).isSome = true ↔ k ∈ (k0 :: t).tail
      rw [hkeys, List.tail_cons, findEntry_isSome_iff]
      constructor
      · rintro ⟨e, he, rfl⟩
        obtain ⟨a, ha, rfl⟩ := List.mem_map.mp he
        simpa using ha
      · intro hk
        exact ⟨(k, f k), List.mem_map.mpr ⟨k, List.mem_reverse.mpr hk, rfl⟩,
          rfl⟩

/-- C1 witness: with capacity 2, the empty run holds at most 2 entries, and
after inserting the three distinct tokens t1, t2, t3, the first token t1 is
no longer cached while t2 and t3 are exactly the keys that remain. -/
theorem claim_C1_witness :
    ((JwtCacheImpl.create true 2).run []).size ≤ 2 ∧
    (((JwtCacheImpl.create true 2).insertAll ["t1", "t2", "t3"]
          jwtOf).containsToken "t1" = true ↔
      "t1" ∈ (["t1", "t2", "t3"] : List String).tail) :=
  ⟨(claim_C1_capacity_and_lru_eviction 2 (by decide) [] ["t1", "t2", "t3"]
      jwtOf (by decide) (by decide)).1,
   (claim_C1_capacity_and_lru_eviction 2 (by decide) [] ["t1", "t2", "t3"]
      jwtOf (by decide) (by decide)).2 "t1"⟩

end JwtAuthn
